import Mathlib

/-!
Verification development for the order domain of the ecommerce-microservices
repository (order-service).  The definitions below are a shallow embedding of

  * `internal/order/model.go`      — the `Order` / `OrderItem` aggregate,
  * `internal/order/repository.go` — the Postgres store (`postgresRepository`),
  * the order `service` (the file defining `allowedTransitions` and
    `service.CreateOrder` / `service.UpdateOrderStatus`).

Go `uuid.UUID` values are modelled as naturals with `uuid.Nil = 0`; Go
`time.Time` values as naturals; Go `float64` money values as the exact
rationals they denote, with every floating-point operation performed by the
code modelled through `fl64`, round-to-nearest-even at 53 bits of precision
(the normal range of IEEE binary64; order amounts never approach overflow or
subnormals).  Database effects are modelled by explicit state passing over a
`DB` value holding the two tables, and each store operation takes explicit
fault parameters standing for the storage errors the driver can return.
-/

set_option maxRecDepth 100000

abbrev Uuid := Nat

/-- `uuid.Nil` of the gofrs/uuid package: the zero UUID. -/
def uuidNil : Uuid := 0

/-- `OrderStatus` of model.go: the six order states. -/
inductive OrderStatus where
  | new
  | processing
  | paid
  | shipped
  | delivered
  | cancelled
deriving DecidableEq, Repr, Fintype

/-- `OrderItem` of model.go. -/
structure OrderItem where
  id : Uuid
  orderId : Uuid
  productId : Uuid
  quantity : Int
  pricePerUnit : ℚ
  createdAt : Nat
  updatedAt : Nat
deriving DecidableEq, Repr

/-- `Order` of model.go (the aggregate, items embedded). -/
structure Order where
  id : Uuid
  userId : Uuid
  status : OrderStatus
  orderItems : List OrderItem
  totalAmount : ℚ
  shippingAddressText : String
  createdAt : Nat
  updatedAt : Nat
deriving DecidableEq, Repr

/-- A row of the `order_service.orders` table (the `Order` columns without
the joined items). -/
structure OrderRow where
  id : Uuid
  userId : Uuid
  status : OrderStatus
  totalAmount : ℚ
  shippingAddressText : String
  createdAt : Nat
  updatedAt : Nat
deriving DecidableEq, Repr

/-- The database state: the `orders` table and the `order_items` table.
Item rows have exactly the `OrderItem` columns. -/
structure DB where
  orders : List OrderRow
  items : List OrderItem
deriving DecidableEq, Repr

/-- `allowedTransitions` of the order service: the map from current status to
the set of statuses it may move to.  A pair absent from the map reads as
`false` (Go zero value), and `DELIVERED` / `CANCELLED` map to empty sets. -/
def allowedTransitions (current requested : OrderStatus) : Bool :=
  match current with
  | .new => requested = .processing ∨ requested = .cancelled
  | .processing => requested = .paid ∨ requested = .shipped ∨ requested = .cancelled
  | .paid => requested = .shipped ∨ requested = .cancelled
  | .shipped => requested = .delivered ∨ requested = .cancelled
  | .delivered => False
  | .cancelled => False

/-- The three outcomes of the transition check inside
`service.UpdateOrderStatus` (spec §4.2 calls them `NoOp` / `Allowed` /
`Rejected`). -/
inductive Decision where
  | noOp
  | allowed
  | rejected
deriving DecidableEq, Repr

/-- The transition check of `service.UpdateOrderStatus` steps 3–4: return
`nil` when the requested status equals the current one, proceed when
`allowedTransitions[current][requested]` holds, otherwise fail with the
invalid-transition error. -/
def checkTransition (current requested : OrderStatus) : Decision :=
  if current = requested then .noOp
  else if allowedTransitions current requested then .allowed
  else .rejected

/-- The transition table of spec §4.2, written down as the spec states it,
for comparison with the code's `allowedTransitions`. -/
def specTransitionTable : List (OrderStatus × OrderStatus) :=
  [(.new, .processing), (.new, .cancelled),
   (.processing, .paid), (.processing, .shipped), (.processing, .cancelled),
   (.paid, .shipped), (.paid, .cancelled),
   (.shipped, .delivered), (.shipped, .cancelled)]

/-- C1: for every pair of statuses, the transition check returns `NoOp`
exactly when the two coincide, `Allowed` exactly on the nine pairs of the
§4.2 table, and `Rejected` otherwise; the terminal states `DELIVERED` and
`CANCELLED` reject every other status, and no status is ever allowed to
transition to `NEW`. -/
theorem checkTransition_matches_spec_table :
    ∀ current requested : OrderStatus,
      (checkTransition current requested = .noOp ↔ current = requested) ∧
      (checkTransition current requested = .allowed ↔
        (current, requested) ∈ specTransitionTable) ∧
      (checkTransition current requested = .rejected ↔
        (current ≠ requested ∧ (current, requested) ∉ specTransitionTable)) ∧
      ((current = .delivered ∨ current = .cancelled) → current ≠ requested →
        checkTransition current requested = .rejected) ∧
      (requested = .new → checkTransition current requested ≠ .allowed) := by
  decide

/-- Round a rational to the nearest integer, ties to even — the rounding
used by IEEE-754 binary64 arithmetic. -/
def roundHalfEven (q : ℚ) : Int :=
  let f := ⌊q⌋
  let frac := q - (f : ℚ)
  if frac < 1/2 then f
  else if 1/2 < frac then f + 1
  else if f % 2 = 0 then f else f + 1

/-- Round a positive rational to the nearest IEEE binary64 value
(53 significant bits, round to nearest, ties to even), expressed as the
exact rational that the resulting double denotes.  `Int.log 2 q` is the
binary exponent `e` with `2 ^ e ≤ q < 2 ^ (e + 1)`. -/
def fl64pos (q : ℚ) : ℚ :=
  let scale : ℚ := (2 : ℚ) ^ (52 - Int.log 2 q)
  (roundHalfEven (q * scale) : ℚ) / scale

/-- The exact rational denoted by the IEEE binary64 double nearest to `q`
(normal range; order amounts never reach overflow or subnormals).  Every
`float64` operation of the Go code is modelled as the exact rational
operation followed by `fl64`. -/
def fl64 (q : ℚ) : ℚ :=
  if q = 0 then 0
  else if q < 0 then -fl64pos (-q)
  else fl64pos q

/-- The binary exponent of a positive rational is pinned down by its two
defining bounds. -/
theorem int_log2_eq_of_bounds {q : ℚ} {e : Int}
    (h1 : (2 : ℚ) ^ e ≤ q) (h2 : q < (2 : ℚ) ^ (e + 1)) : Int.log 2 q = e := by
  have hq : 0 < q := lt_of_lt_of_le (by positivity) h1
  have hb : (1 : ℕ) < 2 := by norm_num
  have hcast : ((2 : ℕ) : ℚ) = (2 : ℚ) := by norm_num
  have hle : e ≤ Int.log 2 q := by
    rw [← Int.zpow_le_iff_le_log hb hq, hcast]; exact h1
  have hlt : Int.log 2 q < e + 1 := by
    rw [← Int.lt_zpow_iff_log_lt hb hq, hcast]; exact h2
  omega

/-- Evaluation scheme for `fl64` at a concrete positive input: supply the
binary exponent bounds and the rounded scaled significand. -/
theorem fl64_eval {q : ℚ} {e m : Int} (hq : 0 < q)
    (h1 : (2 : ℚ) ^ e ≤ q) (h2 : q < (2 : ℚ) ^ (e + 1))
    (hm : roundHalfEven (q * 2 ^ (52 - e)) = m) :
    fl64 q = (m : ℚ) / 2 ^ (52 - e) := by
  unfold fl64 fl64pos
  rw [if_neg hq.ne', if_neg (not_lt.mpr hq.le), int_log2_eq_of_bounds h1 h2]
  simp only []
  rw [hm]

example : fl64 (1/10) = 3602879701896397 / 2 ^ 55 := by
  have := fl64_eval (q := 1/10) (e := -4) (m := 7205759403792794)
    (by norm_num) (by norm_num) (by norm_num)
    (by norm_num [roundHalfEven])
  rw [this]; norm_num
example : fl64 (21/2) = 21/2 := by
  have := fl64_eval (q := 21/2) (e := 3) (m := 5910974510923776)
    (by norm_num) (by norm_num) (by norm_num)
    (by norm_num [roundHalfEven])
  rw [this]; norm_num

/-- `Order` assembled from an orders-table row and its item rows (the scan
loops of the repository). -/
def rowToOrder (r : OrderRow) (items : List OrderItem) : Order :=
  { id := r.id, userId := r.userId, status := r.status, orderItems := items,
    totalAmount := r.totalAmount, shippingAddressText := r.shippingAddressText,
    createdAt := r.createdAt, updatedAt := r.updatedAt }

/-- Errors surfaced by the repository: the typed `ErrOrderNotFound`, and Go
errors wrapped with operation context by `fmt.Errorf` (any driver failure),
which are never `errors.Is`-equal to `ErrOrderNotFound`. -/
inductive RepoError where
  | notFound
  | storage (msg : String)
deriving DecidableEq, Repr

/-- The `orders` row with the given primary key, if any (the
`WHERE id = $1` point lookup). -/
def findOrderRow (db : DB) (orderID : Uuid) : Option OrderRow :=
  db.orders.find? (fun r => r.id == orderID)

/-- All `order_items` rows with the given `order_id`
(the `WHERE order_id = $1` query). -/
def itemsForOrder (db : DB) (orderID : Uuid) : List OrderItem :=
  db.items.filter (fun it => it.orderId == orderID)

/-- `postgresRepository.GetOrderByID`: point lookup of the order row
(`pgx.ErrNoRows` becomes `ErrOrderNotFound`, any other failure is wrapped),
then a second query collecting the item rows into a slice created empty.
The two explicit fault arguments stand for driver failures of the two
queries. -/
def repoGetOrderByID (db : DB) (orderID : Uuid) (qOrderFail qItemsFail : Option String) :
    Except RepoError Order :=
  match qOrderFail with
  | some msg => .error (.storage msg)
  | none =>
    match findOrderRow db orderID with
    | none => .error .notFound
    | some row =>
      match qItemsFail with
      | some msg => .error (.storage msg)
      | none => .ok (rowToOrder row (itemsForOrder db orderID))

/-- `postgresRepository.UpdateOrderStatus`: a single `UPDATE … WHERE id = $3`
setting `status` and `updated_at`; a driver failure is wrapped, and zero
affected rows yields `ErrOrderNotFound`. -/
def repoUpdateOrderStatus (db : DB) (orderID : Uuid) (newStatus : OrderStatus) (now : Nat)
    (execFail : Option String) : Except RepoError Unit × DB :=
  match execFail with
  | some msg => (.error (.storage msg), db)
  | none =>
    if db.orders.any (fun r => r.id == orderID) then
      (.ok (), { db with orders := db.orders.map fun r =>
        if r.id == orderID then { r with status := newStatus, updatedAt := now } else r })
    else (.error .notFound, db)

/-- Failure injection for the `CreateOrder` transaction: `Begin`, each
`Exec` (step 0 is the order insert, step `i + 1` the insert of item `i`),
and `Commit`. -/
structure TxFaults where
  beginFail : Option String
  execFail : Nat → Option String
  commitFail : Option String

/-- A fault-free transaction environment. -/
def noFaults : TxFaults := ⟨none, fun _ => none, none⟩

/-- The id under which `postgresRepository.CreateOrder` persists the order:
the caller's id when non-nil, otherwise a freshly generated `uuid.NewV4`. -/
def finalOrderId (input : Order) (genOrderId : Uuid) : Uuid :=
  if input.id = uuidNil then genOrderId else input.id

/-- The `orders`-table row inserted by `CreateOrder` (server-assigned equal
`created_at` / `updated_at`). -/
def orderRowFor (input : Order) (fid : Uuid) (now : Nat) : OrderRow :=
  { id := fid, userId := input.userId, status := input.status,
    totalAmount := input.totalAmount, shippingAddressText := input.shippingAddressText,
    createdAt := now, updatedAt := now }

/-- The item-insert loop of `CreateOrder`: each item gets a generated id,
the parent order id and server timestamps, and is inserted by an `Exec`
that may fail; the rows are accumulated for the pending transaction. -/
def insertItems : List OrderItem → Uuid → (Nat → Uuid) → (Nat → Option String) →
    (Nat → Nat) → Nat → Except RepoError (List OrderItem)
  | [], _, _, _, _, _ => .ok []
  | it :: rest, fid, gen, execFail, itemTime, idx =>
    let row : OrderItem :=
      { it with
        id := gen idx
        orderId := fid
        createdAt := itemTime idx
        updatedAt := itemTime idx }
    match execFail idx with
    | some msg => .error (.storage msg)
    | none =>
      match insertItems rest fid gen execFail itemTime (idx + 1) with
      | .error e => .error e
      | .ok rows => .ok (row :: rows)

/-- `postgresRepository.CreateOrder`: resolve the order id (caller's id, or
generated when nil), begin a transaction, insert the order row and every
item row, then commit; on a failure at any step the deferred handler rolls
the transaction back, so the database is unchanged.  The pending rows are
appended to the two tables only at the commit point.  On success the
caller's order value is returned with the id, the server timestamps and
the inserted item rows written back (the Go code mutates `orderInput`
through its pointer).  Panic re-raising is outside this model. -/
def repoCreateOrder (db : DB) (input : Order) (genOrderId : Uuid) (genItemId : Nat → Uuid)
    (tf : TxFaults) (now : Nat) (itemTime : Nat → Nat) :
    Except RepoError (Uuid × Order) × DB :=
  let fid := finalOrderId input genOrderId
  match tf.beginFail with
  | some msg => (.error (.storage msg), db)
  | none =>
    match tf.execFail 0 with
    | some msg => (.error (.storage msg), db)
    | none =>
      match insertItems input.orderItems fid genItemId tf.execFail itemTime 1 with
      | .error e => (.error e, db)
      | .ok itemRows =>
        match tf.commitFail with
        | some msg => (.error (.storage msg), db)
        | none =>
          (.ok (fid,
            { input with
              id := fid
              createdAt := now
              updatedAt := now
              orderItems := itemRows }),
           { orders := db.orders ++ [orderRowFor input fid now]
             items := db.items ++ itemRows })

/-- Errors returned by the order service: the validation errors created
locally (`errors.New` / `fmt.Errorf`, returned unwrapped), the typed
`ErrOrderNotFound` passed through, the invalid-transition error carrying
the two statuses, and repository errors wrapped with service context. -/
inductive SvcError where
  | validation (msg : String)
  | notFound
  | invalidTransition (src tgt : OrderStatus)
  | wrapped (e : RepoError)
deriving DecidableEq, Repr

/-- The per-item loop of `service.CreateOrder`: reject non-positive
quantities, negative prices and nil product ids (in that order), zero the
item's id and order id, and accumulate `quantity * price_per_unit` into the
running `float64` total. -/
def checkItems : List OrderItem → ℚ → Except SvcError ℚ
  | [], acc => .ok acc
  | it :: rest, acc =>
    if it.quantity ≤ 0 then
      .error (.validation "order item quantity must be greater than zero")
    else if it.pricePerUnit < 0 then
      .error (.validation "order item price per unit cannot be negative")
    else if it.productId = uuidNil then
      .error (.validation "product id in order item cannot be nil")
    else
      checkItems rest (fl64 (acc + fl64 ((it.quantity : ℚ) * it.pricePerUnit)))

/-- The validation-and-derivation phase of `service.CreateOrder` (what spec
§4.1 calls `PrepareOrder`): reject an empty item list, validate every item
while accumulating the `float64` total, zero the order id and the item ids,
and set `status = NEW` and the computed `total_amount`. -/
def prepareOrder (input : Order) : Except SvcError Order :=
  if input.orderItems.isEmpty then
    .error (.validation "order must contain at least one item")
  else
    match checkItems input.orderItems 0 with
    | .error e => .error e
    | .ok total =>
      .ok { input with
            id := uuidNil
            status := .new
            totalAmount := total
            orderItems := input.orderItems.map fun it =>
              { it with id := uuidNil, orderId := uuidNil } }

/-- `service.CreateOrder`: validate and derive (`prepareOrder`), then call
the repository's `CreateOrder`; validation failures return before any store
call (the state is untouched), repository failures are wrapped with service
context, and on success the mutated order value is returned. -/
def serviceCreateOrder (db : DB) (input : Order) (genOrderId : Uuid)
    (genItemId : Nat → Uuid) (tf : TxFaults) (now : Nat) (itemTime : Nat → Nat) :
    Except SvcError Order × DB :=
  match prepareOrder input with
  | .error e => (.error e, db)
  | .ok prepared =>
    match repoCreateOrder db prepared genOrderId genItemId tf now itemTime with
    | (.error re, db') => (.error (.wrapped re), db')
    | (.ok (_, updated), db') => (.ok updated, db')

/-- `service.UpdateOrderStatus`: fetch the current order (`ErrOrderNotFound`
passed through, other failures wrapped); succeed as a no-op when the status
already matches; reject illegal transitions via `allowedTransitions`;
otherwise run the repository update, again passing `ErrOrderNotFound`
through and wrapping other failures. -/
def serviceUpdateOrderStatus (db : DB) (orderID : Uuid) (newStatus : OrderStatus)
    (now : Nat) (qOrderFail qItemsFail updFail : Option String) :
    Except SvcError Unit × DB :=
  match repoGetOrderByID db orderID qOrderFail qItemsFail with
  | .error .notFound => (.error .notFound, db)
  | .error e => (.error (.wrapped e), db)
  | .ok currentOrder =>
    if currentOrder.status = newStatus then (.ok (), db)
    else if allowedTransitions currentOrder.status newStatus then
      match repoUpdateOrderStatus db orderID newStatus now updFail with
      | (.error .notFound, db') => (.error .notFound, db')
      | (.error e, db') => (.error (.wrapped e), db')
      | (.ok _, db') => (.ok (), db')
    else (.error (.invalidTransition currentOrder.status newStatus), db)

/-- An item fails the creation-time checks when its quantity is
non-positive, its price negative, or its product id nil. -/
abbrev badItem (it : OrderItem) : Prop :=
  it.quantity ≤ 0 ∨ it.pricePerUnit < 0 ∨ it.productId = uuidNil

/-- The item loop errors exactly when some item fails a check. -/
theorem checkItems_error_iff (items : List OrderItem) (acc : ℚ) :
    (∃ e, checkItems items acc = .error e) ↔ ∃ it, it ∈ items ∧ badItem it := by
  induction items generalizing acc with
  | nil => simp [checkItems]
  | cons it rest ih =>
    unfold checkItems
    by_cases h1 : it.quantity ≤ 0
    · rw [if_pos h1]
      exact ⟨fun _ => ⟨it, List.mem_cons_self it rest, Or.inl h1⟩, fun _ => ⟨_, rfl⟩⟩
    · rw [if_neg h1]
      by_cases h2 : it.pricePerUnit < 0
      · rw [if_pos h2]
        exact ⟨fun _ => ⟨it, List.mem_cons_self it rest, Or.inr (Or.inl h2)⟩,
               fun _ => ⟨_, rfl⟩⟩
      · rw [if_neg h2]
        by_cases h3 : it.productId = uuidNil
        · rw [if_pos h3]
          exact ⟨fun _ => ⟨it, List.mem_cons_self it rest, Or.inr (Or.inr h3)⟩,
                 fun _ => ⟨_, rfl⟩⟩
        · rw [if_neg h3]
          rw [ih]
          constructor
          · rintro ⟨x, hx, hbad⟩
            exact ⟨x, List.mem_cons_of_mem _ hx, hbad⟩
          · rintro ⟨x, hx, hbad⟩
            rcases List.mem_cons.mp hx with rfl | hx'
            · rcases hbad with h | h | h
              · exact absurd h h1
              · exact absurd h h2
              · exact absurd h h3
            · exact ⟨x, hx', hbad⟩

/-- Every error of the item loop is a validation error. -/
theorem checkItems_error_validation (items : List OrderItem) (acc : ℚ) (e : SvcError)
    (h : checkItems items acc = .error e) : ∃ msg, e = .validation msg := by
  induction items generalizing acc with
  | nil => simp [checkItems] at h
  | cons it rest ih =>
    unfold checkItems at h
    by_cases h1 : it.quantity ≤ 0
    · rw [if_pos h1] at h
      cases h
      exact ⟨_, rfl⟩
    · rw [if_neg h1] at h
      by_cases h2 : it.pricePerUnit < 0
      · rw [if_pos h2] at h
        cases h
        exact ⟨_, rfl⟩
      · rw [if_neg h2] at h
        by_cases h3 : it.productId = uuidNil
        · rw [if_pos h3] at h
          cases h
          exact ⟨_, rfl⟩
        · rw [if_neg h3] at h
          exact ih _ h

/-- C4: the service-level create rejects with a `ValidationError` and leaves
the store untouched exactly when the item list is empty or some item has a
non-positive quantity, a negative price or a nil product id; on every input
that passes, the order handed to the store has status `NEW`. -/
theorem serviceCreateOrder_validation (input : Order) :
    ((∃ e, prepareOrder input = .error e) ↔
      (input.orderItems = [] ∨ ∃ it, it ∈ input.orderItems ∧ badItem it)) ∧
    (∀ e, prepareOrder input = .error e → ∃ msg, e = .validation msg) ∧
    (∀ e db genOrderId genItemId tf now itemTime,
      prepareOrder input = .error e →
      serviceCreateOrder db input genOrderId genItemId tf now itemTime = (.error e, db)) ∧
    (∀ prepared, prepareOrder input = .ok prepared → prepared.status = .new) := by
  refine ⟨?_, ?_, ?_, ?_⟩
  · unfold prepareOrder
    by_cases hem : input.orderItems.isEmpty
    · rw [if_pos hem]
      exact ⟨fun _ => Or.inl (List.isEmpty_iff.mp hem), fun _ => ⟨_, rfl⟩⟩
    · rw [if_neg hem]
      have hne : ¬ input.orderItems = [] := fun h => hem (by simp [h])
      cases hck : checkItems input.orderItems 0 with
      | error e =>
        simp only [hck]
        constructor
        · intro _
          exact Or.inr ((checkItems_error_iff input.orderItems 0).mp ⟨e, hck⟩)
        · intro _
          exact ⟨e, rfl⟩
      | ok total =>
        simp only [hck]
        constructor
        · rintro ⟨e, he⟩
          exact absurd he (by simp)
        · rintro (h | h)
          · exact absurd h hne
          · rcases (checkItems_error_iff input.orderItems 0).mpr h with ⟨e, he⟩
            rw [he] at hck
            cases hck
  · intro e he
    unfold prepareOrder at he
    by_cases hem : input.orderItems.isEmpty
    · rw [if_pos hem] at he
      cases he
      exact ⟨_, rfl⟩
    · rw [if_neg hem] at he
      cases hck : checkItems input.orderItems 0 with
      | error e' =>
        rw [hck] at he
        cases he
        exact checkItems_error_validation _ _ _ hck
      | ok total =>
        rw [hck] at he
        cases he
  · intro e db genOrderId genItemId tf now itemTime he
    unfold serviceCreateOrder
    rw [he]
  · intro prepared hp
    unfold prepareOrder at hp
    by_cases hem : input.orderItems.isEmpty
    · rw [if_pos hem] at hp
      cases hp
    · rw [if_neg hem] at hp
      cases hck : checkItems input.orderItems 0 with
      | error e' =>
        rw [hck] at hp
        cases hp
      | ok total =>
        rw [hck] at hp
        cases hp
        rfl

/-- A well-formed concrete item for the witness scenarios. -/
def wItemGood : OrderItem :=
  { id := 0, orderId := 0, productId := 9, quantity := 2, pricePerUnit := 1,
    createdAt := 0, updatedAt := 0 }

/-- A concrete order with an empty item list. -/
def wOrderEmpty : Order :=
  { id := 5, userId := 3, status := .processing, orderItems := [],
    totalAmount := 0, shippingAddressText := "", createdAt := 0, updatedAt := 0 }

/-- A concrete stored order row. -/
def wRow : OrderRow :=
  { id := 5, userId := 3, status := .processing, totalAmount := 2,
    shippingAddressText := "", createdAt := 10, updatedAt := 10 }

/-- A concrete database holding one order and no items. -/
def wDB : DB := { orders := [wRow], items := [] }

/-- C4 witness: creating an order with an empty item list fails with the
validation error and leaves the database untouched. -/
theorem serviceCreateOrder_validation_witness :
    serviceCreateOrder wDB wOrderEmpty 7 (fun _ => 11) noFaults 0 (fun _ => 0) =
      (.error (.validation "order must contain at least one item"), wDB) :=
  (serviceCreateOrder_validation wOrderEmpty).2.2.1
    (.validation "order must contain at least one item") wDB 7 (fun _ => 11) noFaults 0
    (fun _ => 0) rfl

/-- C5: requesting an order's current status succeeds as a no-op that leaves
the stored state — `updated_at` included — exactly as it was, even if the
store's update statement would fail; repeating the call therefore yields the
identical stored state both times. -/
theorem serviceUpdateOrderStatus_noop (db : DB) (orderID : Uuid) (row : OrderRow)
    (s : OrderStatus) (now : Nat) (updFail : Option String)
    (hfind : findOrderRow db orderID = some row) (hs : row.status = s) :
    serviceUpdateOrderStatus db orderID s now none none updFail = (.ok (), db) := by
  unfold serviceUpdateOrderStatus repoGetOrderByID
  rw [hfind]
  simp [rowToOrder, hs]

/-- C5 witness: the stored order with status `PROCESSING` accepts a
`PROCESSING` no-op request without touching the database. -/
theorem serviceUpdateOrderStatus_noop_witness :
    serviceUpdateOrderStatus wDB 5 .processing 99 none none (some "boom") = (.ok (), wDB) :=
  serviceUpdateOrderStatus_noop wDB 5 wRow .processing 99 (some "boom") rfl rfl

/-- C6: the typed `NotFound` error is returned by `GetOrderByID` exactly when
the order row is absent (and no driver fault occurred), and by the store's
`UpdateOrderStatus` exactly when zero rows matched the id; every injected
driver failure instead surfaces as a wrapped storage error, which is never
equal to `NotFound`. -/
theorem repo_notFound_exactly (db : DB) (orderID : Uuid)
    (qOrderFail qItemsFail : Option String) (newStatus : OrderStatus) (now : Nat)
    (updFail : Option String) :
    (repoGetOrderByID db orderID qOrderFail qItemsFail = .error .notFound ↔
      (qOrderFail = none ∧ findOrderRow db orderID = none)) ∧
    ((repoUpdateOrderStatus db orderID newStatus now updFail).1 = .error .notFound ↔
      (updFail = none ∧ ∀ r, r ∈ db.orders → r.id ≠ orderID)) ∧
    (∀ msg, qOrderFail = some msg →
      repoGetOrderByID db orderID qOrderFail qItemsFail = .error (.storage msg) ∧
      (RepoError.storage msg ≠ .notFound)) ∧
    (∀ msg row, qOrderFail = none → findOrderRow db orderID = some row →
      qItemsFail = some msg →
      repoGetOrderByID db orderID qOrderFail qItemsFail = .error (.storage msg)) ∧
    (∀ msg, updFail = some msg →
      (repoUpdateOrderStatus db orderID newStatus now updFail).1 = .error (.storage msg)) := by
  refine ⟨?_, ?_, ?_, ?_, ?_⟩
  · unfold repoGetOrderByID
    cases qOrderFail with
    | some msg => simp
    | none =>
      cases hf : findOrderRow db orderID with
      | none => simp
      | some row =>
        cases qItemsFail with
        | some msg => simp
        | none => simp
  · unfold repoUpdateOrderStatus
    cases updFail with
    | some msg => simp
    | none =>
      by_cases h : db.orders.any (fun r => r.id == orderID)
      · rw [if_pos h]
        simp only [List.any_eq_true, beq_iff_eq] at h
        obtain ⟨r, hr, hid⟩ := h
        constructor
        · intro hx
          simp at hx
        · rintro ⟨-, hall⟩
          exact absurd hid (hall r hr)
      · rw [if_neg h]
        simp only [List.any_eq_true, beq_iff_eq] at h
        push_neg at h
        exact ⟨fun _ => ⟨rfl, h⟩, fun _ => rfl⟩
  · intro msg hq
    subst hq
    exact ⟨rfl, by simp⟩
  · intro msg row hq hf hi
    subst hq
    subst hi
    unfold repoGetOrderByID
    rw [hf]
  · intro msg hu
    subst hu
    rfl

/-- C6 witness: looking up an absent id yields the typed `NotFound`, and an
injected driver failure on the update yields a wrapped storage error. -/
theorem repo_notFound_exactly_witness :
    (repoGetOrderByID wDB 6 none none = .error .notFound) ∧
    ((repoUpdateOrderStatus wDB 5 .paid 99 (some "io")).1 = .error (.storage "io")) :=
  ⟨(repo_notFound_exactly wDB 6 none none .paid 99 none).1.mpr ⟨rfl, rfl⟩,
   (repo_notFound_exactly wDB 5 none none .paid 99 (some "io")).2.2.2.2 "io" rfl⟩

/-- C9: when the order row exists but no item rows reference it,
`GetOrderByID` succeeds and returns the order with an empty item list — the
non-empty-items invariant is not re-validated on reads. -/
theorem repoGetOrderByID_zero_items (db : DB) (orderID : Uuid) (row : OrderRow)
    (hfind : findOrderRow db orderID = some row)
    (hitems : itemsForOrder db orderID = []) :
    repoGetOrderByID db orderID none none = .ok (rowToOrder row []) ∧
    (rowToOrder row []).orderItems = [] := by
  unfold repoGetOrderByID
  rw [hfind, hitems]
  exact ⟨rfl, rfl⟩

/-- C9 witness: the stored order has no item rows, and reading it succeeds
with an empty item list. -/
theorem repoGetOrderByID_zero_items_witness :
    repoGetOrderByID wDB 5 none none = .ok (rowToOrder wRow []) :=
  (repoGetOrderByID_zero_items wDB 5 wRow rfl rfl).1

/-- C2: the store-level create is atomic — when any step of the transaction
fails (begin, the order insert, any item insert, or the commit), the
database is left exactly as it was, and a subsequent `GetOrderByID` for the
attempted order id reports `NotFound` (provided the id was fresh, as it is
for a newly generated order id). -/
theorem repoCreateOrder_atomic (db : DB) (input : Order) (genOrderId : Uuid)
    (genItemId : Nat → Uuid) (tf : TxFaults) (now : Nat) (itemTime : Nat → Nat)
    (e : RepoError)
    (herr : (repoCreateOrder db input genOrderId genItemId tf now itemTime).1 = .error e)
    (hfresh : ∀ r, r ∈ db.orders → r.id ≠ finalOrderId input genOrderId) :
    (repoCreateOrder db input genOrderId genItemId tf now itemTime).2 = db ∧
    repoGetOrderByID (repoCreateOrder db input genOrderId genItemId tf now itemTime).2
      (finalOrderId input genOrderId) none none = .error .notFound := by
  have hnf : findOrderRow db (finalOrderId input genOrderId) = none := by
    unfold findOrderRow
    rw [List.find?_eq_none]
    intro r hr
    simpa using hfresh r hr
  have hdb : (repoCreateOrder db input genOrderId genItemId tf now itemTime).2 = db := by
    unfold repoCreateOrder at herr ⊢
    dsimp only at herr ⊢
    cases hbf : tf.beginFail with
    | some msg => rfl
    | none =>
      rw [hbf] at herr
      dsimp only at herr
      cases h0 : tf.execFail 0 with
      | some msg => rfl
      | none =>
        rw [h0] at herr
        dsimp only at herr
        cases hins : insertItems input.orderItems (finalOrderId input genOrderId)
            genItemId tf.execFail itemTime 1 with
        | error e' => rfl
        | ok rows =>
          rw [hins] at herr
          dsimp only at herr
          cases hcf : tf.commitFail with
          | some msg => rfl
          | none =>
            rw [hcf] at herr
            simp at herr
  refine ⟨hdb, ?_⟩
  rw [hdb]
  unfold repoGetOrderByID
  rw [hnf]

/-- C2 witness: with a forced failure on the second item's insert (exec
step 2), creating a two-item order against the empty database errors and
leaves both tables empty, and the round-trip lookup reports `NotFound`. -/
theorem repoCreateOrder_atomic_witness :
    ((repoCreateOrder ⟨[], []⟩
        { wOrderEmpty with id := uuidNil, orderItems := [wItemGood, wItemGood] }
        7 (fun n => 20 + n) ⟨none, fun n => if n = 2 then some "forced" else none, none⟩
        5 (fun _ => 6)).2 = ⟨[], []⟩) ∧
    repoGetOrderByID (repoCreateOrder ⟨[], []⟩
        { wOrderEmpty with id := uuidNil, orderItems := [wItemGood, wItemGood] }
        7 (fun n => 20 + n) ⟨none, fun n => if n = 2 then some "forced" else none, none⟩
        5 (fun _ => 6)).2 7 none none = .error .notFound := by
  have h := repoCreateOrder_atomic ⟨[], []⟩
    { wOrderEmpty with id := uuidNil, orderItems := [wItemGood, wItemGood] }
    7 (fun n => 20 + n) ⟨none, fun n => if n = 2 then some "forced" else none, none⟩
    5 (fun _ => 6) (.storage "forced") rfl (by intro r hr; simp at hr)
  exact ⟨h.1, h.2⟩

/-- C7 counterexample: the claim that the persisted and returned id is
always the id supplied by the caller fails — here the caller supplies the
nil id (exactly what `service.CreateOrder` always does after zeroing it),
and the store persists and returns its own generated id `7` instead. -/
theorem repoCreateOrder_callerId_counterexample :
    ({ wOrderEmpty with id := uuidNil, orderItems := [wItemGood] } : Order).id = uuidNil ∧
    ((repoCreateOrder ⟨[], []⟩ { wOrderEmpty with id := uuidNil, orderItems := [wItemGood] }
        7 (fun n => 20 + n) noFaults 5 (fun _ => 6)).1.toOption.map Prod.fst = some 7) ∧
    ((repoCreateOrder ⟨[], []⟩ { wOrderEmpty with id := uuidNil, orderItems := [wItemGood] }
        7 (fun n => 20 + n) noFaults 5 (fun _ => 6)).2.orders.map (fun r => r.id) = [7]) ∧
    (7 : Uuid) ≠ uuidNil := by
  refine ⟨rfl, rfl, rfl, by decide⟩

/-- C7 amended: on success the id persisted and returned by the store is the
caller's id when the caller supplied a non-nil id, and the store-generated
id when the caller supplied the nil id (the service always supplies nil, so
in the service path the store generates the id); the persisted order row
carries exactly that id. -/
theorem repoCreateOrder_id_policy (db : DB) (input : Order) (genOrderId : Uuid)
    (genItemId : Nat → Uuid) (tf : TxFaults) (now : Nat) (itemTime : Nat → Nat)
    (rid : Uuid) (updated : Order) (db' : DB)
    (hok : repoCreateOrder db input genOrderId genItemId tf now itemTime =
      (.ok (rid, updated), db')) :
    rid = finalOrderId input genOrderId ∧
    (input.id ≠ uuidNil → rid = input.id) ∧
    (input.id = uuidNil → rid = genOrderId) ∧
    updated.id = rid ∧
    db'.orders = db.orders ++ [orderRowFor input rid now] := by
  have hmain : rid = finalOrderId input genOrderId ∧ updated.id = rid ∧
      db'.orders = db.orders ++ [orderRowFor input rid now] := by
    unfold repoCreateOrder at hok
    dsimp only at hok
    cases hbf : tf.beginFail with
    | some msg => rw [hbf] at hok; simp at hok
    | none =>
      rw [hbf] at hok
      dsimp only at hok
      cases h0 : tf.execFail 0 with
      | some msg => rw [h0] at hok; simp at hok
      | none =>
        rw [h0] at hok
        dsimp only at hok
        cases hins : insertItems input.orderItems (finalOrderId input genOrderId)
            genItemId tf.execFail itemTime 1 with
        | error e' => rw [hins] at hok; simp at hok
        | ok rows =>
          rw [hins] at hok
          dsimp only at hok
          cases hcf : tf.commitFail with
          | some msg => rw [hcf] at hok; simp at hok
          | none =>
            rw [hcf] at hok
            simp only [Prod.mk.injEq, Except.ok.injEq] at hok
            obtain ⟨⟨hr, hu⟩, hd⟩ := hok
            subst hr
            subst hu
            subst hd
            exact ⟨rfl, rfl, rfl⟩
  refine ⟨hmain.1, ?_, ?_, hmain.2.1, hmain.2.2⟩
  · intro hne
    rw [hmain.1]
    unfold finalOrderId
    rw [if_neg hne]
  · intro heq
    rw [hmain.1]
    unfold finalOrderId
    rw [if_pos heq]

/-- A concrete create input carrying a caller-supplied non-nil id. -/
def wInput42 : Order := { wOrderEmpty with id := 42, orderItems := [wItemGood] }

/-- The item row the store inserts for `wInput42` (generated id 21, parent
order id 42, item timestamps 6). -/
def wItem42 : OrderItem :=
  { wItemGood with id := 21, orderId := 42, createdAt := 6, updatedAt := 6 }

/-- The order value written back for `wInput42`. -/
def wUpd42 : Order :=
  { wInput42 with orderItems := [wItem42], createdAt := 5, updatedAt := 5 }

/-- The database state after persisting `wInput42`. -/
def wDB42 : DB := { orders := [orderRowFor wInput42 42 5], items := [wItem42] }

/-- C7 amended witness: a caller-supplied non-nil id `42` is the id the
store persists and returns. -/
theorem repoCreateOrder_id_policy_witness :
    wInput42.id ≠ uuidNil ∧
    (42 : Uuid) = wInput42.id ∧
    wDB42.orders = ([] : List OrderRow) ++ [orderRowFor wInput42 42 5] :=
  ⟨by decide,
   (repoCreateOrder_id_policy ⟨[], []⟩ wInput42 7 (fun n => 20 + n) noFaults 5 (fun _ => 6)
     42 wUpd42 wDB42 rfl).2.1 (by decide),
   (repoCreateOrder_id_policy ⟨[], []⟩ wInput42 7 (fun n => 20 + n) noFaults 5 (fun _ => 6)
     42 wUpd42 wDB42 rfl).2.2.2.2⟩

/-- The exact rational value of the IEEE binary64 double nearest to the
decimal price `0.10`. -/
def wDimePrice : ℚ := 3602879701896397 / 2 ^ 55

/-- An item priced at the stored `float64` for `0.10`, quantity 1. -/
def wDimeItem : OrderItem := { wItemGood with quantity := 1, pricePerUnit := wDimePrice }

/-- An order of three such items: decimal-exact total `0.30`. -/
def wDimeOrder : Order := { wOrderEmpty with orderItems := [wDimeItem, wDimeItem, wDimeItem] }

/-- The stored price is exactly the double parsed from `0.10`. -/
theorem fl64_dime : fl64 (1 / 10) = wDimePrice := by
  have := fl64_eval (q := 1/10) (e := -4) (m := 7205759403792794)
    (by norm_num) (by norm_num) (by norm_num) (by norm_num [roundHalfEven])
  rw [this]
  unfold wDimePrice
  norm_num

/-- The float64 accumulation of the three dime items, step by step:
`0.1 + 0.1` is exact at double precision, but the third addition rounds
up (ties to even), so the computed total exceeds both the decimal value
`0.30` and the exact sum of the three stored prices. -/
theorem checkItems_dime_eval :
    checkItems [wDimeItem, wDimeItem, wDimeItem] 0 = .ok (5404319552844596 / 2 ^ 54) := by
  have hp : fl64 (((1 : Int) : ℚ) * wDimePrice) = wDimePrice := by
    have := fl64_eval (q := ((1 : Int) : ℚ) * wDimePrice) (e := -4) (m := 7205759403792794)
      (by norm_num [wDimePrice]) (by norm_num [wDimePrice]) (by norm_num [wDimePrice])
      (by norm_num [wDimePrice, roundHalfEven])
    rw [this]
    norm_num [wDimePrice]
  have h1 : fl64 ((0 : ℚ) + wDimePrice) = wDimePrice := by
    have := fl64_eval (q := (0 : ℚ) + wDimePrice) (e := -4) (m := 7205759403792794)
      (by norm_num [wDimePrice]) (by norm_num [wDimePrice]) (by norm_num [wDimePrice])
      (by norm_num [wDimePrice, roundHalfEven])
    rw [this]
    norm_num [wDimePrice]
  have h2 : fl64 (wDimePrice + wDimePrice) = 3602879701896397 / 2 ^ 54 := by
    have := fl64_eval (q := wDimePrice + wDimePrice) (e := -3) (m := 7205759403792794)
      (by norm_num [wDimePrice]) (by norm_num [wDimePrice]) (by norm_num [wDimePrice])
      (by norm_num [wDimePrice, roundHalfEven])
    rw [this]
    norm_num
  have h3 : fl64 ((3602879701896397 / 2 ^ 54 : ℚ) + wDimePrice) =
      5404319552844596 / 2 ^ 54 := by
    have := fl64_eval (q := (3602879701896397 / 2 ^ 54 : ℚ) + wDimePrice) (e := -2)
      (m := 5404319552844596)
      (by norm_num [wDimePrice]) (by norm_num [wDimePrice]) (by norm_num [wDimePrice])
      (by norm_num [wDimePrice, roundHalfEven])
    rw [this]
    norm_num
  simp only [checkItems, wDimeItem, wItemGood]
  rw [if_neg (by norm_num), if_neg (by norm_num [wDimePrice]), if_neg (by norm_num [uuidNil]),
      if_neg (by norm_num), if_neg (by norm_num [wDimePrice]), if_neg (by norm_num [uuidNil]),
      if_neg (by norm_num), if_neg (by norm_num [wDimePrice]), if_neg (by norm_num [uuidNil]),
      hp, h1, h2, h3]

/-- C3 (the code contradicts it; the spec itself records the float64 money
representation as a defect): for three items of quantity 1 priced at the
stored double for the two-decimal price `0.10`, the total computed at order
creation is `5404319552844596 / 2^54 = 0.30000000000000004440…` — not the
decimal-exact sum `0.30`, and not even the exact rational sum of the three
stored prices, because the third `float64` addition rounds. -/
theorem createOrder_total_drifts :
    (prepareOrder wDimeOrder).toOption.map Order.totalAmount =
      some (5404319552844596 / 2 ^ 54) ∧
    (5404319552844596 / 2 ^ 54 : ℚ) ≠ 3 * (1 / 10) ∧
    (5404319552844596 / 2 ^ 54 : ℚ) ≠ wDimePrice + wDimePrice + wDimePrice ∧
    fl64 (1 / 10) = wDimePrice := by
  refine ⟨?_, by norm_num, by norm_num [wDimePrice], fl64_dime⟩
  unfold prepareOrder
  rw [show wDimeOrder.orderItems = [wDimeItem, wDimeItem, wDimeItem] from rfl]
  rw [if_neg (by simp)]
  rw [checkItems_dime_eval]
  rfl

/-- The in-memory `map[uuid.UUID]*Order` of `GetOrdersByUserID`, modelled as
an association list with Go map semantics. -/
abbrev OrdersMap := List (Uuid × Order)

/-- Go map assignment: overwrite the binding if the key is present,
otherwise add it. -/
def mapSet : OrdersMap → Uuid → Order → OrdersMap
  | [], k, v => [(k, v)]
  | (k', v') :: rest, k, v =>
    if k' = k then (k, v) :: rest else (k', v') :: mapSet rest k v

/-- Go map lookup (the `order, ok := ordersMap[id]` form). -/
def mapGet : OrdersMap → Uuid → Option Order
  | [], _ => none
  | (k', v') :: rest, k => if k' = k then some v' else mapGet rest k

/-- The order-scan loop: each fetched row is stored in the map under its id
with an item list created empty. -/
def buildOrdersMap : OrdersMap → List OrderRow → OrdersMap
  | m, [] => m
  | m, r :: rest => buildOrdersMap (mapSet m r.id (rowToOrder r [])) rest

/-- The item-scan loop: each fetched item row is appended to the order it
references when that order is in the map, and silently dropped otherwise. -/
def attachItems : OrdersMap → List OrderItem → OrdersMap
  | m, [] => m
  | m, it :: rest =>
    attachItems
      (match mapGet m it.orderId with
       | none => m
       | some o => mapSet m it.orderId { o with orderItems := o.orderItems ++ [it] })
      rest

/-- The `ORDER BY created_at DESC` ordering of the user's order rows. -/
def createdDesc (a b : OrderRow) : Prop := b.createdAt ≤ a.createdAt

instance : DecidableRel createdDesc := fun a b => Nat.decLe b.createdAt a.createdAt

instance : IsTotal OrderRow createdDesc := ⟨fun a b => le_total b.createdAt a.createdAt⟩

instance : IsTrans OrderRow createdDesc := ⟨fun _ _ _ hab hbc => le_trans hbc hab⟩

/-- The result set of the user-orders query: the rows with the given
`user_id`, sorted by `created_at` descending (a stable sort is one valid
model of the SQL ordering). -/
def sortByCreatedDesc (rows : List OrderRow) : List OrderRow :=
  List.insertionSort createdDesc rows

/-- The rows returned by the user-orders query: `WHERE user_id = $1
ORDER BY created_at DESC`. -/
def userRows (db : DB) (userID : Uuid) : List OrderRow :=
  sortByCreatedDesc (db.orders.filter (fun r => r.userId == userID))

/-- The rows returned by the batched item query:
`WHERE order_id = ANY($1)` over the fetched order ids. -/
def fetchedItemsFor (db : DB) (userID : Uuid) : List OrderItem :=
  db.items.filter (fun it =>
    ((userRows db userID).map (fun r => r.id)).contains it.orderId)

/-- `postgresRepository.GetOrdersByUserID`: query the user's order rows
ordered by `created_at` descending, build the id-keyed map, return an empty
list when there are none, else fetch all item rows whose `order_id` is in
the id set (`= ANY($1)`), attach each to its order in the map, and assemble
the result by walking the id list in query order. -/
def repoGetOrdersByUserID (db : DB) (userID : Uuid)
    (qOrdersFail qItemsFail : Option String) : Except RepoError (List Order) :=
  match qOrdersFail with
  | some msg => .error (.storage msg)
  | none =>
    let rows := userRows db userID
    let orderIDs := rows.map (fun r => r.id)
    if orderIDs.isEmpty then .ok []
    else
      match qItemsFail with
      | some msg => .error (.storage msg)
      | none =>
        .ok (orderIDs.filterMap
          (mapGet (attachItems (buildOrdersMap [] rows) (fetchedItemsFor db userID))))

theorem mapGet_mapSet_self (m : OrdersMap) (k : Uuid) (v : Order) :
    mapGet (mapSet m k v) k = some v := by
  induction m with
  | nil => simp [mapSet, mapGet]
  | cons p rest ih =>
    obtain ⟨k', v'⟩ := p
    by_cases h : k' = k
    · simp [mapSet, h, mapGet]
    · simp [mapSet, h, mapGet, ih]

theorem mapGet_mapSet_other (m : OrdersMap) (k k' : Uuid) (v : Order) (h : k ≠ k') :
    mapGet (mapSet m k v) k' = mapGet m k' := by
  induction m with
  | nil => simp [mapSet, mapGet, h]
  | cons p rest ih =>
    obtain ⟨k0, v0⟩ := p
    by_cases h0 : k0 = k
    · subst h0
      simp [mapSet, mapGet, h]
    · simp [mapSet, h0, mapGet, ih]

/-- Attaching the fetched items appends, to each mapped order, exactly the
fetched items referencing its key, in fetch order; items whose key is not
in the map change nothing. -/
theorem mapGet_attachItems (fetched : List OrderItem) (m : OrdersMap) (k : Uuid) :
    mapGet (attachItems m fetched) k =
      (mapGet m k).map (fun o =>
        { o with orderItems :=
            o.orderItems ++ fetched.filter (fun it => it.orderId == k) }) := by
  induction fetched generalizing m with
  | nil =>
    simp [attachItems]
  | cons it rest ih =>
    unfold attachItems
    by_cases hk : it.orderId = k
    · subst hk
      cases hm : mapGet m it.orderId with
      | none =>
        rw [ih]
        rw [hm]
        simp
      | some o =>
        rw [ih]
        rw [mapGet_mapSet_self]
        simp [List.filter_cons, List.append_assoc]
    · cases hm : mapGet m it.orderId with
      | none =>
        rw [ih]
        have : (List.filter (fun it' => it'.orderId == k) (it :: rest)) =
            List.filter (fun it' => it'.orderId == k) rest := by
          simp [List.filter_cons, hk]
        rw [this]
      | some o =>
        rw [ih]
        rw [mapGet_mapSet_other _ _ _ _ hk]
        have : (List.filter (fun it' => it'.orderId == k) (it :: rest)) =
            List.filter (fun it' => it'.orderId == k) rest := by
          simp [List.filter_cons, hk]
        rw [this]

/-- Keys not among the scanned rows are untouched by the order-scan loop. -/
theorem mapGet_buildOrdersMap_notmem (rows : List OrderRow) (m : OrdersMap) (k : Uuid)
    (h : ∀ r, r ∈ rows → r.id ≠ k) :
    mapGet (buildOrdersMap m rows) k = mapGet m k := by
  induction rows generalizing m with
  | nil => rfl
  | cons r0 rest ih =>
    unfold buildOrdersMap
    rw [ih _ (fun r hr => h r (List.mem_cons_of_mem _ hr))]
    exact mapGet_mapSet_other _ _ _ _ (h r0 (List.mem_cons_self ..))

/-- With primary-key-unique row ids, the order-scan loop maps each row's id
to that row with an empty item list. -/
theorem mapGet_buildOrdersMap (rows : List OrderRow) (m : OrdersMap) (r : OrderRow)
    (hnd : (rows.map (fun x => x.id)).Nodup) (hr : r ∈ rows) :
    mapGet (buildOrdersMap m rows) r.id = some (rowToOrder r []) := by
  induction rows generalizing m with
  | nil => cases hr
  | cons r0 rest ih =>
    rw [List.map_cons, List.nodup_cons] at hnd
    rcases List.mem_cons.mp hr with rfl | hmem
    · unfold buildOrdersMap
      have hno : ∀ x, x ∈ rest → x.id ≠ r.id := by
        intro x hx hxe
        exact hnd.1 (hxe ▸ List.mem_map_of_mem (fun y => y.id) hx)
      rw [mapGet_buildOrdersMap_notmem rest _ _ hno, mapGet_mapSet_self]
    · unfold buildOrdersMap
      exact ih _ hnd.2 hmem

/-- `filterMap` over mapped keys collapses to a plain `map` when the lookup
succeeds pointwise. -/
theorem filterMap_of_pointwise_some {α β γ : Type} (l : List α) (key : α → β)
    (f : β → Option γ) (g : α → γ) (h : ∀ a, a ∈ l → f (key a) = some (g a)) :
    (l.map key).filterMap f = l.map g := by
  induction l with
  | nil => rfl
  | cons a rest ih =>
    rw [List.map_cons, List.map_cons,
      List.filterMap_cons_some (h a (List.mem_cons_self ..)),
      ih (fun x hx => h x (List.mem_cons_of_mem _ hx))]

/-- The assembled result of the two-query read: with unique row ids, it is
exactly the row list in query order, each row carrying the fetched items
that reference it, in fetch order. -/
theorem getOrders_assembly (rows : List OrderRow) (fetched : List OrderItem)
    (hnd : (rows.map (fun x => x.id)).Nodup) :
    (rows.map (fun r => r.id)).filterMap
        (mapGet (attachItems (buildOrdersMap [] rows) fetched)) =
      rows.map (fun r =>
        rowToOrder r (fetched.filter (fun it => it.orderId == r.id))) := by
  refine filterMap_of_pointwise_some rows (fun r => r.id) _ _ ?_
  intro r hr
  rw [mapGet_attachItems, mapGet_buildOrdersMap rows [] r hnd hr]
  simp [rowToOrder]

/-- The sorted user rows keep the primary-key uniqueness of the table. -/
theorem userRows_ids_nodup (db : DB) (userID : Uuid)
    (hnd : (db.orders.map (fun r => r.id)).Nodup) :
    ((userRows db userID).map (fun r => r.id)).Nodup := by
  have hsub : List.Sublist
      ((db.orders.filter (fun r => r.userId == userID)).map (fun r => r.id))
      (db.orders.map (fun r => r.id)) :=
    List.Sublist.map _ (List.filter_sublist _)
  have h2 : ((db.orders.filter (fun r => r.userId == userID)).map (fun r => r.id)).Nodup :=
    List.Nodup.sublist hsub hnd
  have hperm : List.Perm (userRows db userID)
      (db.orders.filter (fun r => r.userId == userID)) :=
    List.perm_insertionSort _ _
  exact ((hperm.map (fun r => r.id)).nodup_iff).mpr h2

/-- The user rows come back sorted by `created_at` descending. -/
theorem userRows_sorted (db : DB) (userID : Uuid) :
    List.Sorted createdDesc (userRows db userID) :=
  List.sorted_insertionSort createdDesc _

/-- Characterization of a successful listing: with unique row ids, the
result is the sorted user rows, each carrying the fetched items that
reference it. -/
theorem repoGetOrdersByUserID_ok (db : DB) (userID : Uuid) (res : List Order)
    (hnd : (db.orders.map (fun r => r.id)).Nodup)
    (hok : repoGetOrdersByUserID db userID none none = .ok res) :
    res = (userRows db userID).map (fun r =>
      rowToOrder r ((fetchedItemsFor db userID).filter (fun it => it.orderId == r.id))) := by
  unfold repoGetOrdersByUserID at hok
  dsimp only at hok
  by_cases hemp : (((userRows db userID).map (fun r => r.id)).isEmpty = true)
  · rw [if_pos hemp] at hok
    have hrows : userRows db userID = [] :=
      List.map_eq_nil_iff.mp (List.isEmpty_iff.mp hemp)
    simp only [Except.ok.injEq] at hok
    subst hok
    rw [hrows]
    rfl
  · rw [if_neg hemp] at hok
    simp only [Except.ok.injEq] at hok
    subst hok
    exact getOrders_assembly _ _ (userRows_ids_nodup db userID hnd)

/-- C8: `GetOrdersByUserID` returns exactly that user's orders sorted by
`created_at` descending (given the table's primary-key uniqueness): the
result is the user's order rows in descending-`created_at` order with their
items attached, every returned order belongs to the requested user, and the
returned order ids are a permutation of the user's order-row ids — no
order of another user, none missing.  For a user with no orders it returns
an empty list and no error; the item query is not even reached, so an
injected item-query fault cannot fail the empty case. -/
theorem getOrdersByUser_sorted_and_empty :
    (∀ db userID qItemsFail,
      db.orders.filter (fun r => r.userId == userID) = [] →
      repoGetOrdersByUserID db userID none qItemsFail = .ok []) ∧
    (∀ db userID res,
      (db.orders.map (fun r => r.id)).Nodup →
      repoGetOrdersByUserID db userID none none = .ok res →
      List.Sorted (fun a b : Order => b.createdAt ≤ a.createdAt) res) ∧
    (∀ db userID res,
      (db.orders.map (fun r => r.id)).Nodup →
      repoGetOrdersByUserID db userID none none = .ok res →
      res = (userRows db userID).map (fun r =>
        rowToOrder r ((fetchedItemsFor db userID).filter (fun it => it.orderId == r.id))) ∧
      (∀ o, o ∈ res → o.userId = userID) ∧
      List.Perm (res.map (fun o => o.id))
        ((db.orders.filter (fun r => r.userId == userID)).map (fun r => r.id))) := by
  refine ⟨?_, ?_, ?_⟩
  · intro db userID qItemsFail hemp
    unfold repoGetOrdersByUserID userRows
    rw [hemp]
    rfl
  · intro db userID res hnd hok
    rw [repoGetOrdersByUserID_ok db userID res hnd hok]
    exact List.Pairwise.map _ (fun a b hab => hab) (userRows_sorted db userID)
  · intro db userID res hnd hok
    have hres := repoGetOrdersByUserID_ok db userID res hnd hok
    have hperm : List.Perm (userRows db userID)
        (db.orders.filter (fun r => r.userId == userID)) :=
      List.perm_insertionSort _ _
    refine ⟨hres, ?_, ?_⟩
    · intro o ho
      rw [hres] at ho
      rcases List.mem_map.mp ho with ⟨r, hr, heq⟩
      have hrf : r ∈ db.orders.filter (fun x => x.userId == userID) :=
        hperm.mem_iff.mp hr
      have hru : (r.userId == userID) = true := (List.mem_filter.mp hrf).2
      rw [← heq]
      simpa [rowToOrder] using hru
    · rw [hres, List.map_map]
      have hcomp : ((fun o : Order => o.id) ∘ fun r =>
          rowToOrder r ((fetchedItemsFor db userID).filter (fun it => it.orderId == r.id))) =
          fun r : OrderRow => r.id := rfl
      rw [hcomp]
      exact hperm.map _

/-- C10: in every successful listing (with primary-key-unique row ids),
each returned order carries exactly the fetched item rows whose `order_id`
equals its id — equivalently, all of the table's item rows for that id —
no item is attached to a different order, and an item row referencing an
order outside the result is in no returned order's item list. -/
theorem getOrdersByUser_items_exact (db : DB) (userID : Uuid) (res : List Order)
    (hnd : (db.orders.map (fun r => r.id)).Nodup)
    (hok : repoGetOrdersByUserID db userID none none = .ok res) :
    (∀ o, o ∈ res → o.orderItems =
      (fetchedItemsFor db userID).filter (fun it => it.orderId == o.id)) ∧
    (∀ o, o ∈ res → o.orderItems = db.items.filter (fun it => it.orderId == o.id)) ∧
    (∀ o, o ∈ res → ∀ it, it ∈ o.orderItems → it.orderId = o.id) ∧
    (∀ it, it ∈ db.items → (∀ o, o ∈ res → o.id ≠ it.orderId) →
      ∀ o, o ∈ res → it ∉ o.orderItems) := by
  have hres := repoGetOrdersByUserID_ok db userID res hnd hok
  have hmem : ∀ o, o ∈ res → ∃ r, r ∈ userRows db userID ∧
      o = rowToOrder r ((fetchedItemsFor db userID).filter (fun it => it.orderId == r.id)) := by
    intro o ho
    rw [hres] at ho
    rcases List.mem_map.mp ho with ⟨r, hr, heq⟩
    exact ⟨r, hr, heq.symm⟩
  have part1 : ∀ o, o ∈ res → o.orderItems =
      (fetchedItemsFor db userID).filter (fun it => it.orderId == o.id) := by
    intro o ho
    rcases hmem o ho with ⟨r, hr, rfl⟩
    rfl
  have part2 : ∀ o, o ∈ res →
      o.orderItems = db.items.filter (fun it => it.orderId == o.id) := by
    intro o ho
    rcases hmem o ho with ⟨r, hr, rfl⟩
    show (fetchedItemsFor db userID).filter (fun it => it.orderId == r.id) =
      db.items.filter (fun it => it.orderId == r.id)
    unfold fetchedItemsFor
    rw [List.filter_filter]
    apply List.filter_congr
    intro it hit
    by_cases hid : it.orderId = r.id
    · have hidmem : r.id ∈ (userRows db userID).map (fun x => x.id) :=
        List.mem_map_of_mem (fun x => x.id) hr
      have hcont : ((userRows db userID).map (fun x => x.id)).contains it.orderId = true := by
        rw [hid]
        exact List.elem_eq_true_of_mem hidmem
      simp [hid, hcont]
      exact ⟨r, hr, rfl⟩
    · simp [hid]
  have part3 : ∀ o, o ∈ res → ∀ it, it ∈ o.orderItems → it.orderId = o.id := by
    intro o ho it hit
    rw [part1 o ho] at hit
    have := (List.mem_filter.mp hit).2
    simpa using this
  refine ⟨part1, part2, part3, ?_⟩
  intro it hitdb hno o ho hin
  exact hno o ho (part3 o ho it hin).symm

/-- A second stored order for the same user, created later. -/
def wRowB : OrderRow :=
  { id := 6, userId := 3, status := .new, totalAmount := 1,
    shippingAddressText := "", createdAt := 20, updatedAt := 20 }

/-- An item row referencing order 5. -/
def wItemFor5 : OrderItem :=
  { id := 31, orderId := 5, productId := 9, quantity := 1, pricePerUnit := 1,
    createdAt := 2, updatedAt := 2 }

/-- An item row referencing no stored order (order id 99). -/
def wItemStray : OrderItem :=
  { id := 32, orderId := 99, productId := 9, quantity := 1, pricePerUnit := 1,
    createdAt := 2, updatedAt := 2 }

/-- A database with two orders of user 3 and one stray item row. -/
def wDB2 : DB := { orders := [wRow, wRowB], items := [wItemFor5, wItemStray] }

/-- The expected listing for user 3: newest order first, items attached. -/
def wRes2 : List Order := [rowToOrder wRowB [], rowToOrder wRow [wItemFor5]]

/-- C8 witness: user 99 has no orders and gets an empty list even with a
faulty item query; the listing for user 3 comes back sorted by
`created_at` descending, is exactly user 3's rows with their items, and
every returned order belongs to user 3. -/
theorem getOrdersByUser_sorted_and_empty_witness :
    repoGetOrdersByUserID wDB2 99 none (some "io") = .ok [] ∧
    List.Sorted (fun a b : Order => b.createdAt ≤ a.createdAt) wRes2 ∧
    wRes2 = (userRows wDB2 3).map (fun r =>
      rowToOrder r ((fetchedItemsFor wDB2 3).filter (fun it => it.orderId == r.id))) ∧
    (∀ o, o ∈ wRes2 → o.userId = 3) :=
  ⟨getOrdersByUser_sorted_and_empty.1 wDB2 99 (some "io") rfl,
   getOrdersByUser_sorted_and_empty.2.1 wDB2 3 wRes2 (by decide) rfl,
   (getOrdersByUser_sorted_and_empty.2.2 wDB2 3 wRes2 (by decide) rfl).1,
   (getOrdersByUser_sorted_and_empty.2.2 wDB2 3 wRes2 (by decide) rfl).2.1⟩

/-- C10 witness: in the concrete listing, order 5 carries exactly the item
rows referencing id 5 (the stray item row for id 99 is dropped). -/
theorem getOrdersByUser_items_exact_witness :
    (rowToOrder wRow [wItemFor5]).orderItems =
      wDB2.items.filter (fun it => it.orderId == (rowToOrder wRow [wItemFor5]).id) :=
  (getOrdersByUser_items_exact wDB2 3 wRes2 (by decide) rfl).2.1
    (rowToOrder wRow [wItemFor5])
    (by unfold wRes2; exact List.mem_cons_of_mem _ (List.mem_cons_self _ _))

/-- C1 witness: a request out of the terminal state `DELIVERED` to a
different status is rejected. -/
theorem checkTransition_matches_spec_table_witness :
    checkTransition .delivered .processing = .rejected :=
  (checkTransition_matches_spec_table .delivered .processing).2.2.2.1 (Or.inl rfl)
    (by decide)
